import Mathlib

/-!
# SignTracker workflow engine: shallow embedding and verification

A shallow embedding of the document approval/signature workflow of the
SignTracker repository, and proofs of the specification claims about it.

The embedded operations are translated directly from the TypeScript source:

* `handleApproval`        — `AdminApprovals.handleApproval` (recordApproverDecision)
* `updateSignerStatus`    — `DocumentDetails.updateSignerStatus` (recordSignerOutcome)
* `createDocumentSchema_check` / `onSubmit` / `submitDocument`
                          — `CreateDocument`'s zod schema and `onSubmit` (submitDocument)
* `signUp` / `isAdminCode` — `lib/supabase.ts` auth helpers

The persistence gateway (Supabase tables) is modelled as lists of rows in a
`DBState`; row ids are opaque `Nat`s, timestamps are `Nat`s.  Supabase
`update ... eq(field, v)` is modelled as a `List.map` touching the matching
rows, `insert` as a list append, filtered `select` as `List.filter`.
-/

namespace SignTracker

/-- `Document.status`: the six values of the documents table CHECK constraint. -/
inductive DocStatus
  | draft
  | pending_approval
  | approved
  | rejected
  | in_progress
  | completed
deriving DecidableEq, Repr

/-- `Approver.status`: `'pending' | 'approved' | 'rejected'`. -/
inductive ApproverStatus
  | pending
  | approved
  | rejected
deriving DecidableEq, Repr

/-- `ExternalSigner.status`: `'pending' | 'signed' | 'rejected'`. -/
inductive SignerStatus
  | pending
  | signed
  | rejected
deriving DecidableEq, Repr

/-- The decision argument of `handleApproval`: `'approved' | 'rejected'`. -/
inductive Decision
  | approved
  | rejected
deriving DecidableEq, Repr

/-- The outcome argument of `updateSignerStatus`: `'signed' | 'rejected'`. -/
inductive SignOutcome
  | signed
  | rejected
deriving DecidableEq, Repr

/-- A row of the `users` table. -/
structure UserRow where
  id : Nat
  email : String
  employee_code : String
  full_name : String
  is_admin : Bool
deriving DecidableEq, Repr

/-- A row of the `documents` table. -/
structure DocumentRow where
  id : Nat
  title : String
  description : String
  document_url : String
  created_by : Nat
  status : DocStatus
deriving DecidableEq, Repr

/-- A row of the `approvers` table. -/
structure ApproverRow where
  id : Nat
  document_id : Nat
  user_id : Nat
  order : Nat
  status : ApproverStatus
  comments : Option String
  approved_at : Option Nat
deriving DecidableEq, Repr

/-- A row of the `external_signers` table. -/
structure ExternalSignerRow where
  id : Nat
  document_id : Nat
  name : String
  designation : String
  order : Nat
  status : SignerStatus
  comments : Option String
  signed_at : Option Nat
deriving DecidableEq, Repr

/-- A row of the `status_updates` table (the ActivityEvent log). -/
structure StatusUpdateRow where
  document_id : Nat
  updated_by : Nat
  update_type : String
  message : String
deriving DecidableEq, Repr

/-- The persistence gateway: the five tables, each a list of rows. -/
structure DBState where
  users : List UserRow
  documents : List DocumentRow
  approvers : List ApproverRow
  external_signers : List ExternalSignerRow
  status_updates : List StatusUpdateRow
deriving DecidableEq, Repr

/-- The string value of a decision, as interpolated into messages and
written to `status_updates.update_type` by `handleApproval`. -/
def decisionString : Decision → String
  | .approved => "approved"
  | .rejected => "rejected"

/-- The `approvers.status` value written for a decision. -/
def decisionApproverStatus : Decision → ApproverStatus
  | .approved => .approved
  | .rejected => .rejected

/-- The string value of a signer outcome. -/
def signOutcomeString : SignOutcome → String
  | .signed => "signed"
  | .rejected => "rejected"

/-- The `external_signers.status` value written for an outcome. -/
def signOutcomeStatus : SignOutcome → SignerStatus
  | .signed => .signed
  | .rejected => .rejected

/-- JavaScript `a || b` on an optional string: an absent or empty string is
falsy, so it falls through to the default. -/
def jsOrString (s : Option String) (dflt : String) : String :=
  match s with
  | some c => if c = "" then dflt else c
  | none => dflt

/-- The `approvers` row update of `handleApproval`
(`update({status, comments, approved_at}).eq('id', approverId)`). -/
def updApproverRow (approverId : Nat) (status : Decision) (comments : Option String)
    (now : Nat) (a : ApproverRow) : ApproverRow :=
  if a.id = approverId then
    { a with
      status := decisionApproverStatus status
      comments := comments
      approved_at := if status = .approved then some now else none }
  else a

/-- The re-read of `handleApproval`:
`from('approvers').select('status').eq('document_id', documentId)`. -/
def docApproverStatuses (approvers : List ApproverRow) (documentId : Nat) :
    List ApproverStatus :=
  (approvers.filter (fun a => a.document_id = documentId)).map (fun a => a.status)

/-- The local `newDocumentStatus` of `handleApproval`: `'rejected'` when any
re-read row is rejected, `'approved'` when all are approved, else
`'pending_approval'`. -/
def newDocumentStatusOf (rows : List ApproverStatus) : DocStatus :=
  if rows.any (fun s => s = .rejected) then .rejected
  else if rows.all (fun s => s = .approved) then .approved
  else .pending_approval

/-- The local `updateMessage` of `handleApproval`, after the two conditional
reassignments. -/
def approvalUpdateMessage (rows : List ApproverStatus) (status : Decision)
    (user : UserRow) : String :=
  if rows.any (fun s => s = .rejected) then
    "Document rejected by one or more approvers"
  else if rows.all (fun s => s = .approved) then
    "Document approved by all approvers and ready for signing"
  else
    "Document " ++ decisionString status ++ " by " ++ user.full_name

/-- `AdminApprovals.handleApproval` (the engine's recordApproverDecision):
updates the acting approver's row, re-reads all approver rows of the
document, conditionally updates the document status
(`'approved'` is persisted as `'in_progress'`), and inserts one
`status_updates` row whose `update_type` is the decision and whose message is
`comments || updateMessage`. -/
def handleApproval (st : DBState) (user : UserRow) (now : Nat)
    (documentId approverId : Nat) (status : Decision) (comments : Option String) :
    DBState :=
  let approvers1 := st.approvers.map (updApproverRow approverId status comments now)
  let allApprovers := docApproverStatuses approvers1 documentId
  let nds := newDocumentStatusOf allApprovers
  let documents1 :=
    if nds ≠ .pending_approval then
      st.documents.map (fun d =>
        if d.id = documentId then
          { d with status := if nds = .approved then .in_progress else .rejected }
        else d)
    else st.documents
  let newUpdate : StatusUpdateRow :=
    { document_id := documentId
      updated_by := user.id
      update_type := decisionString status
      message := jsOrString comments (approvalUpdateMessage allApprovers status user) }
  { st with
    approvers := approvers1
    documents := documents1
    status_updates := st.status_updates ++ [newUpdate] }

/-- The `external_signers` row update of `updateSignerStatus`
(`update({status, signed_at, comments}).eq('id', signerId)`). -/
def updSignerRow (signerId : Nat) (status : SignOutcome) (updateMessage : String)
    (now : Nat) (s : ExternalSignerRow) : ExternalSignerRow :=
  if s.id = signerId then
    { s with
      status := signOutcomeStatus status
      signed_at := if status = .signed then some now else none
      comments := some updateMessage }
  else s

/-- The local `updatedSigners` of `updateSignerStatus`: the component
snapshot with the acting row's status replaced in place. -/
def snapUpdSigner (signerId : Nat) (status : SignOutcome) (s : ExternalSignerRow) :
    ExternalSignerRow :=
  if s.id = signerId then { s with status := signOutcomeStatus status } else s

/-- `DocumentDetails.updateSignerStatus` (the engine's recordSignerOutcome).
`signers` is the component state snapshot fetched by `fetchDocumentDetails`
(the document's signer rows at fetch time) and `updateMessage` is the
comments textarea; the document-status derivation runs on the snapshot with
the acting row locally updated — not on a re-read of the store. -/
def updateSignerStatus (st : DBState) (user : UserRow) (now : Nat)
    (id : Nat) (signers : List ExternalSignerRow) (updateMessage : String)
    (signerId : Nat) (status : SignOutcome) : DBState :=
  let signersDb := st.external_signers.map (updSignerRow signerId status updateMessage now)
  let newUpdate : StatusUpdateRow :=
    { document_id := id
      updated_by := user.id
      update_type := if status = .signed then "signature_received" else "rejected"
      message :=
        if updateMessage = "" then "Signature " ++ signOutcomeString status
        else updateMessage }
  let updatedSigners := signers.map (snapUpdSigner signerId status)
  let allSigned := updatedSigners.all (fun s => s.status = .signed)
  let anyRejected := updatedSigners.any (fun s => s.status = .rejected)
  let documents1 :=
    if allSigned then
      st.documents.map (fun d =>
        if d.id = id then { d with status := .completed } else d)
    else if anyRejected then
      st.documents.map (fun d =>
        if d.id = id then { d with status := .rejected } else d)
    else st.documents
  { st with
    external_signers := signersDb
    documents := documents1
    status_updates := st.status_updates ++ [newUpdate] }

/-- An external-signer entry of the create-document form. -/
structure SignerInput where
  name : String
  designation : String
deriving DecidableEq, Repr

/-- The validated form data of `CreateDocument` (`CreateDocumentFormData`).
`approvers` is the ordered list of selected approver user ids. -/
structure CreateDocumentFormData where
  title : String
  description : String
  approvers : List Nat
  external_signers : List SignerInput
deriving DecidableEq, Repr

/-- The zod `createDocumentSchema` of `CreateDocument`: title at least 3
characters, description at least 10, at least one approver, each signer with
name and designation of at least 2 characters, and at least one signer. -/
def createDocumentSchema_check (d : CreateDocumentFormData) : Bool :=
  decide (3 ≤ d.title.length) &&
  decide (10 ≤ d.description.length) &&
  decide (1 ≤ d.approvers.length) &&
  d.external_signers.all
    (fun s => decide (2 ≤ s.name.length) && decide (2 ≤ s.designation.length)) &&
  decide (1 ≤ d.external_signers.length)

/-- Which of `onSubmit`'s row writes the persistence gateway accepts on a
given call.  The source checks `docError`, `approverError` and `signerError`
and throws, but never reads the result of the `status_updates` insert. -/
structure WriteOutcomes where
  docInsertOk : Bool
  approverInsertOk : Bool
  signerInsertOk : Bool
  statusInsertOk : Bool
deriving DecidableEq, Repr

/-- The errors `onSubmit` can throw from its row writes. -/
inductive SubmitError
  | docInsertFailed
  | approverInsertFailed
  | signerInsertFailed
deriving DecidableEq, Repr

/-- `CreateDocument.onSubmit`, from the document insert on (the file upload
precedes it and is out of scope).  Row ids are gateway-generated; they are
modelled by the fresh base ids `newDocId`, `apprIdBase`, `sigIdBase`.  Each
insert either succeeds (per `w`) or throws, aborting the remaining writes;
nothing already written is rolled back.  The `status_updates` insert result
is not checked in the source, so its failure does not abort or surface. -/
def onSubmit (st : DBState) (user : UserRow) (w : WriteOutcomes)
    (newDocId apprIdBase sigIdBase : Nat) (fileUrl : String)
    (data : CreateDocumentFormData) : DBState × Except SubmitError Nat :=
  if !w.docInsertOk then (st, .error .docInsertFailed)
  else
    let doc : DocumentRow :=
      { id := newDocId
        title := data.title
        description := data.description
        document_url := fileUrl
        created_by := user.id
        status := .pending_approval }
    let st1 := { st with documents := st.documents ++ [doc] }
    if !w.approverInsertOk then (st1, .error .approverInsertFailed)
    else
      let approverRecords := data.approvers.enum.map (fun p =>
        ({ id := apprIdBase + p.1
           document_id := newDocId
           user_id := p.2
           order := p.1 + 1
           status := .pending
           comments := none
           approved_at := none } : ApproverRow))
      let st2 := { st1 with approvers := st1.approvers ++ approverRecords }
      if !w.signerInsertOk then (st2, .error .signerInsertFailed)
      else
        let signerRecords := data.external_signers.enum.map (fun p =>
          ({ id := sigIdBase + p.1
             document_id := newDocId
             name := p.2.name
             designation := p.2.designation
             order := p.1 + 1
             status := .pending
             comments := none
             signed_at := none } : ExternalSignerRow))
        let st3 := { st2 with external_signers := st2.external_signers ++ signerRecords }
        let st4 :=
          if w.statusInsertOk then
            { st3 with status_updates := st3.status_updates ++
                [{ document_id := newDocId
                   updated_by := user.id
                   update_type := "created"
                   message := "Document created and submitted for approval" }] }
          else st3
        (st4, .ok newDocId)

/-- The result of a whole submit attempt: zod validation failure, a thrown
gateway error, or success with the created document id. -/
inductive SubmitResult
  | validationError
  | persistError (e : SubmitError)
  | ok (docId : Nat)
deriving DecidableEq, Repr

/-- The whole submitDocument path: `handleSubmit(onSubmit)` with
`zodResolver(createDocumentSchema)` — `onSubmit` runs only on data that
passes the schema; invalid data performs no write at all. -/
def submitDocument (st : DBState) (user : UserRow) (w : WriteOutcomes)
    (newDocId apprIdBase sigIdBase : Nat) (fileUrl : String)
    (data : CreateDocumentFormData) : DBState × SubmitResult :=
  if createDocumentSchema_check data then
    match onSubmit st user w newDocId apprIdBase sigIdBase fileUrl data with
    | (st1, .ok docId) => (st1, .ok docId)
    | (st1, .error e) => (st1, .persistError e)
  else (st, .validationError)

/-- `lib/supabase.ts` `isAdminCode`: the employee code is one of the four
admin codes (`adminCodes.includes(employeeCode)`). -/
def isAdminCode (employeeCode : String) : Bool :=
  (["0001", "0002", "0003", "0004"]).contains employeeCode

/-- `lib/supabase.ts` `signUp` (profile insert): inserts one `users` row
with `is_admin := isAdminCode employeeCode`.  (The variant relying on the
`handle_new_user` database trigger computes the same boolean from the same
four literal codes.) -/
def signUp (st : DBState) (newUserId : Nat)
    (email _password employeeCode fullName : String) : DBState :=
  let isAdmin := isAdminCode employeeCode
  { st with users := st.users ++
      [{ id := newUserId
         email := email
         employee_code := employeeCode
         full_name := fullName
         is_admin := isAdmin }] }

/-! ## Claim-side (spec §4) derivation rules, for comparison with the code -/

/-- Spec §4 status derivation from approver rows: rejected if any row is
rejected, `in_progress` if all rows are approved, else the current status. -/
def deriveFromApprovers (rows : List ApproverStatus) (current : DocStatus) : DocStatus :=
  if rows.any (fun s => s = .rejected) then .rejected
  else if rows.all (fun s => s = .approved) then .in_progress
  else current

/-- Spec §4 status derivation from signer rows: rejected if any row is
rejected, `completed` if all rows are signed, else the current status. -/
def deriveFromSigners (rows : List SignerStatus) (current : DocStatus) : DocStatus :=
  if rows.any (fun s => s = .rejected) then .rejected
  else if rows.all (fun s => s = .signed) then .completed
  else current

/-! ## Projection lemmas for `handleApproval` -/

theorem handleApproval_approvers (st : DBState) (user : UserRow) (now documentId approverId : Nat)
    (dec : Decision) (comments : Option String) :
    (handleApproval st user now documentId approverId dec comments).approvers =
      st.approvers.map (updApproverRow approverId dec comments now) := rfl

theorem handleApproval_documents (st : DBState) (user : UserRow) (now documentId approverId : Nat)
    (dec : Decision) (comments : Option String) :
    (handleApproval st user now documentId approverId dec comments).documents =
      (if newDocumentStatusOf (docApproverStatuses
            (st.approvers.map (updApproverRow approverId dec comments now)) documentId)
          ≠ .pending_approval then
        st.documents.map (fun d =>
          if d.id = documentId then
            { d with status :=
                if newDocumentStatusOf (docApproverStatuses
                    (st.approvers.map (updApproverRow approverId dec comments now)) documentId)
                  = .approved then .in_progress else .rejected }
          else d)
      else st.documents) := rfl

theorem handleApproval_status_updates (st : DBState) (user : UserRow)
    (now documentId approverId : Nat) (dec : Decision) (comments : Option String) :
    (handleApproval st user now documentId approverId dec comments).status_updates =
      st.status_updates ++
        [{ document_id := documentId
           updated_by := user.id
           update_type := decisionString dec
           message := jsOrString comments (approvalUpdateMessage
             (docApproverStatuses
               (st.approvers.map (updApproverRow approverId dec comments now)) documentId)
             dec user) }] := rfl

theorem handleApproval_users (st : DBState) (user : UserRow) (now documentId approverId : Nat)
    (dec : Decision) (comments : Option String) :
    (handleApproval st user now documentId approverId dec comments).users = st.users := rfl

theorem handleApproval_external_signers (st : DBState) (user : UserRow)
    (now documentId approverId : Nat) (dec : Decision) (comments : Option String) :
    (handleApproval st user now documentId approverId dec comments).external_signers =
      st.external_signers := rfl

/-! ## Concrete fixtures -/

def uCreator : UserRow := ⟨10, "carol@club.org", "1234", "Carol", false⟩

def uAdmin1 : UserRow := ⟨11, "alice@club.org", "0001", "Alice", true⟩

def uAdmin2 : UserRow := ⟨12, "bob@club.org", "0002", "Bob", true⟩

def uAdmin3 : UserRow := ⟨13, "dan@club.org", "0003", "Dan", true⟩

def uOther : UserRow := ⟨99, "oscar@club.org", "4444", "Oscar", false⟩

def apprPending1 : ApproverRow := ⟨1, 7, 11, 1, .pending, none, none⟩

def apprPending2 : ApproverRow := ⟨2, 7, 12, 2, .pending, none, none⟩

def docPending : DocumentRow := ⟨7, "Budget", "Annual budget", "https://blob/1", 10, .pending_approval⟩

/-- A document in `pending_approval` with two pending approvers. -/
def stPending2 : DBState :=
  ⟨[uCreator, uAdmin1, uAdmin2], [docPending], [apprPending1, apprPending2], [], []⟩

/-! ## C1: recordApproverDecision derives the document status from a re-read
of all approver rows -/

/-- C1.  On a document in `pending_approval`, `handleApproval` first updates
the acting approver's row, then re-reads all approver rows of the document
and stores on the document the derived status: `rejected` if any re-read row
is rejected, `in_progress` if all are approved, else the unchanged
`pending_approval`. -/
theorem c1_handleApproval_derives_status (st : DBState) (user : UserRow)
    (now documentId approverId : Nat) (dec : Decision) (comments : Option String)
    (hdoc : ∀ d ∈ st.documents, d.id = documentId → d.status = .pending_approval) :
    (∀ a ∈ (handleApproval st user now documentId approverId dec comments).approvers,
        a.id = approverId → a.status = decisionApproverStatus dec) ∧
    (∀ d ∈ (handleApproval st user now documentId approverId dec comments).documents,
        d.id = documentId →
          d.status = deriveFromApprovers
            (docApproverStatuses
              (handleApproval st user now documentId approverId dec comments).approvers
              documentId)
            .pending_approval) := by
  constructor
  · intro a ha hid
    rw [handleApproval_approvers] at ha
    rcases List.mem_map.mp ha with ⟨a0, _, rfl⟩
    unfold updApproverRow at hid ⊢
    by_cases h0 : a0.id = approverId
    · simp [h0]
    · simp [h0] at hid
  · intro d hd hid
    rw [handleApproval_approvers]
    rw [handleApproval_documents] at hd
    set R := docApproverStatuses
      (st.approvers.map (updApproverRow approverId dec comments now)) documentId with hR
    by_cases hr : R.any (fun s => s = ApproverStatus.rejected)
    · have hnds : newDocumentStatusOf R = .rejected := by
        unfold newDocumentStatusOf; simp [hr]
      rw [hnds] at hd
      simp only [ne_eq, reduceCtorEq, not_false_eq_true, if_true, reduceIte] at hd
      rcases List.mem_map.mp hd with ⟨d0, _, rfl⟩
      by_cases h0 : d0.id = documentId
      · simp only [h0, if_true]
        unfold deriveFromApprovers
        simp [hr]
      · simp only [h0, if_false] at hid ⊢
    · by_cases ha : R.all (fun s => s = ApproverStatus.approved)
      · have hnds : newDocumentStatusOf R = .approved := by
          unfold newDocumentStatusOf; simp [hr, ha]
        rw [hnds] at hd
        simp only [ne_eq, reduceCtorEq, not_false_eq_true, if_true, reduceIte] at hd
        rcases List.mem_map.mp hd with ⟨d0, _, rfl⟩
        by_cases h0 : d0.id = documentId
        · simp only [h0, if_true]
          unfold deriveFromApprovers
          simp [hr, ha]
        · simp only [h0, if_false] at hid ⊢
      · have hnds : newDocumentStatusOf R = .pending_approval := by
          unfold newDocumentStatusOf; simp [hr, ha]
        rw [hnds] at hd
        simp only [ne_eq, not_true_eq_false, if_false, reduceIte] at hd
        unfold deriveFromApprovers
        simp only [hr, ha, if_false]
        exact hdoc d hd hid

/-- C1 witness: Alice approves her pending assignment on the
two-pending-approver document; the document stays `pending_approval`, which
is the derived status of the re-read rows `[approved, pending]`. -/
theorem c1_handleApproval_derives_status_witness :
    (∀ a ∈ (handleApproval stPending2 uAdmin1 5 7 1 .approved none).approvers,
        a.id = 1 → a.status = decisionApproverStatus .approved) ∧
    (∀ d ∈ (handleApproval stPending2 uAdmin1 5 7 1 .approved none).documents,
        d.id = 7 →
          d.status = deriveFromApprovers
            (docApproverStatuses
              (handleApproval stPending2 uAdmin1 5 7 1 .approved none).approvers 7)
            .pending_approval) :=
  c1_handleApproval_derives_status stPending2 uAdmin1 5 7 1 .approved none (by decide)

/-! ## Projection lemmas for `updateSignerStatus` -/

theorem updateSignerStatus_external_signers (st : DBState) (user : UserRow) (now id : Nat)
    (signers : List ExternalSignerRow) (msg : String) (signerId : Nat) (outcome : SignOutcome) :
    (updateSignerStatus st user now id signers msg signerId outcome).external_signers =
      st.external_signers.map (updSignerRow signerId outcome msg now) := rfl

theorem updateSignerStatus_documents (st : DBState) (user : UserRow) (now id : Nat)
    (signers : List ExternalSignerRow) (msg : String) (signerId : Nat) (outcome : SignOutcome) :
    (updateSignerStatus st user now id signers msg signerId outcome).documents =
      (if (signers.map (snapUpdSigner signerId outcome)).all
            (fun s => s.status = SignerStatus.signed) then
        st.documents.map (fun d =>
          if d.id = id then { d with status := .completed } else d)
      else if (signers.map (snapUpdSigner signerId outcome)).any
            (fun s => s.status = SignerStatus.rejected) then
        st.documents.map (fun d =>
          if d.id = id then { d with status := .rejected } else d)
      else st.documents) := rfl

theorem updateSignerStatus_users (st : DBState) (user : UserRow) (now id : Nat)
    (signers : List ExternalSignerRow) (msg : String) (signerId : Nat) (outcome : SignOutcome) :
    (updateSignerStatus st user now id signers msg signerId outcome).users = st.users := rfl

theorem updateSignerStatus_approvers (st : DBState) (user : UserRow) (now id : Nat)
    (signers : List ExternalSignerRow) (msg : String) (signerId : Nat) (outcome : SignOutcome) :
    (updateSignerStatus st user now id signers msg signerId outcome).approvers =
      st.approvers := rfl

theorem updateSignerStatus_status_updates (st : DBState) (user : UserRow) (now id : Nat)
    (signers : List ExternalSignerRow) (msg : String) (signerId : Nat) (outcome : SignOutcome) :
    (updateSignerStatus st user now id signers msg signerId outcome).status_updates =
      st.status_updates ++
        [{ document_id := id
           updated_by := user.id
           update_type := if outcome = .signed then "signature_received" else "rejected"
           message :=
             if msg = "" then "Signature " ++ signOutcomeString outcome else msg }] := rfl

/-- `updSignerRow` never changes the row's `document_id`. -/
theorem updSignerRow_document_id (signerId : Nat) (outcome : SignOutcome)
    (msg : String) (now : Nat) (s : ExternalSignerRow) :
    (updSignerRow signerId outcome msg now s).document_id = s.document_id := by
  unfold updSignerRow; split <;> rfl

/-- The stored row update and the snapshot row update produce the same
`status`. -/
theorem updSignerRow_status (signerId : Nat) (outcome : SignOutcome)
    (msg : String) (now : Nat) (s : ExternalSignerRow) :
    (updSignerRow signerId outcome msg now s).status =
      (snapUpdSigner signerId outcome s).status := by
  unfold updSignerRow snapUpdSigner; split <;> rfl

/-! ## Further fixtures -/

def sigPending1 : ExternalSignerRow := ⟨21, 7, "Zed", "CEO", 1, .pending, none, none⟩

def sigPending2 : ExternalSignerRow := ⟨22, 7, "Yan", "CFO", 2, .pending, none, none⟩

def sigRejected2 : ExternalSignerRow := ⟨22, 7, "Yan", "CFO", 2, .rejected, none, none⟩

def docInProgress : DocumentRow :=
  ⟨7, "Budget", "Annual budget", "https://blob/1", 10, .in_progress⟩

def docRejected : DocumentRow :=
  ⟨7, "Budget", "Annual budget", "https://blob/1", 10, .rejected⟩

/-- A document in `in_progress` whose stored signer rows are
`[pending, rejected]`, while a caller's earlier snapshot still shows both
pending. -/
def stStale : DBState :=
  ⟨[uCreator, uAdmin1], [docInProgress], [], [sigPending1, sigRejected2], []⟩

/-- A rejected document whose approver rows are `[rejected, approved]`. -/
def stRejected : DBState :=
  ⟨[uCreator, uAdmin1, uAdmin2], [docRejected],
   [⟨1, 7, 11, 1, .rejected, none, none⟩, ⟨2, 7, 12, 2, .approved, none, none⟩], [], []⟩

/-- A document in `pending_approval` with a single pending approver. -/
def stPending1 : DBState :=
  ⟨[uCreator, uAdmin1], [docPending], [apprPending1], [], []⟩

/-! ## C3: recordSignerOutcome derives the status from the caller's snapshot,
not from the stored rows -/

/-- C3 counterexample.  The store holds signer rows `[pending, rejected]`
for document 7, the caller's snapshot (fetched before the other row was
rejected) holds `[pending, pending]`.  Recording `signed` for signer 21
leaves the document `in_progress`, although the stored rows after the call
are `[signed, rejected]`, whose evaluation per the claim would give
`rejected`: the derivation used the snapshot, not the rows as currently
stored. -/
theorem c3_snapshot_counterexample :
    ((updateSignerStatus stStale uCreator 5 7 [sigPending1, sigPending2] "" 21
        .signed).documents.map (fun d => d.status) = [.in_progress]) ∧
    (((updateSignerStatus stStale uCreator 5 7 [sigPending1, sigPending2] "" 21
        .signed).external_signers.filter (fun s => s.document_id = 7)).map
        (fun s => s.status) = [.signed, .rejected]) ∧
    deriveFromSigners [.signed, .rejected] .in_progress = .rejected := by decide

/-- `List.any` through a `map` across types. -/
theorem list_any_map {α β : Type} (f : α → β) (l : List α) (p : β → Bool) :
    (l.map f).any p = l.any (fun a => p (f a)) := by
  induction l with
  | nil => rfl
  | cons a t ih => simp [List.any_cons, ih]

/-- `List.all` through a `map` across types. -/
theorem list_all_map {α β : Type} (f : α → β) (l : List α) (p : β → Bool) :
    (l.map f).all p = l.all (fun a => p (f a)) := by
  induction l with
  | nil => rfl
  | cons a t ih => simp [List.all_cons, ih]

/-- The spec derivation over the statuses of a row list, phrased on the
rows. -/
theorem deriveFromSigners_rows (U : List ExternalSignerRow) (old : DocStatus) :
    deriveFromSigners (U.map (fun s => s.status)) old =
      (if U.any (fun s => s.status = SignerStatus.rejected) then .rejected
       else if U.all (fun s => s.status = SignerStatus.signed) then .completed
       else old) := by
  unfold deriveFromSigners
  rw [list_any_map, list_all_map]

/-- A row list that is all signed has no rejected member. -/
theorem all_signed_no_rejected (U : List ExternalSignerRow)
    (hall : U.all (fun s => s.status = SignerStatus.signed) = true) :
    U.any (fun s => s.status = SignerStatus.rejected) = false := by
  rw [Bool.eq_false_iff]
  intro hcon
  rcases List.any_eq_true.mp hcon with ⟨s, hs, hrej⟩
  have hsg := List.all_eq_true.mp hall s hs
  simp only [decide_eq_true_eq] at hrej hsg
  rw [hsg] at hrej
  exact SignerStatus.noConfusion hrej

/-- C3 amended.  `updateSignerStatus` derives the new document status from
the caller's snapshot with the acting row updated in place; whenever that
snapshot agrees with the stored signer rows of the document, the stored
document status becomes: `rejected` if any (post-update) stored row is
rejected, `completed` if all are signed, and otherwise stays unchanged. -/
theorem c3_updateSignerStatus_derives_from_agreeing_snapshot (st : DBState)
    (user : UserRow) (now id : Nat) (signers : List ExternalSignerRow)
    (msg : String) (signerId : Nat) (outcome : SignOutcome)
    (hsnap : signers = st.external_signers.filter (fun s => s.document_id = id)) :
    (updateSignerStatus st user now id signers msg signerId outcome).documents =
      st.documents.map (fun d =>
        if d.id = id then
          { d with status := (deriveFromSigners
              (((updateSignerStatus st user now id signers msg signerId
                  outcome).external_signers.filter
                  (fun s => s.document_id = id)).map (fun s => s.status))
              d.status) }
        else d) := by
  rw [updateSignerStatus_documents, updateSignerStatus_external_signers]
  have hpred : ∀ s ∈ st.external_signers,
      (decide ((updSignerRow signerId outcome msg now s).document_id = id)) =
        (decide (s.document_id = id)) := by
    intro s _
    rw [updSignerRow_document_id]
  have hcomm : (st.external_signers.map (updSignerRow signerId outcome msg now)).filter
        (fun s => s.document_id = id) =
      signers.map (updSignerRow signerId outcome msg now) := by
    rw [List.filter_map]
    simp only [Function.comp_def]
    rw [List.filter_congr hpred, ← hsnap]
  rw [hcomm]
  have hstat : (signers.map (updSignerRow signerId outcome msg now)).map
        (fun s => s.status) =
      (signers.map (snapUpdSigner signerId outcome)).map (fun s => s.status) := by
    rw [List.map_map, List.map_map]
    apply List.map_eq_map_iff.mpr
    intro s _
    simp only [Function.comp_apply]
    exact updSignerRow_status signerId outcome msg now s
  rw [hstat]
  simp only [deriveFromSigners_rows]
  by_cases hall : (signers.map (snapUpdSigner signerId outcome)).all
      (fun s => s.status = SignerStatus.signed)
  · have hany := all_signed_no_rejected _ hall
    simp [hall, hany]
  · have hall' : (signers.map (snapUpdSigner signerId outcome)).all
        (fun s => s.status = SignerStatus.signed) = false := Bool.eq_false_iff.mpr hall
    by_cases hanyr : (signers.map (snapUpdSigner signerId outcome)).any
        (fun s => s.status = SignerStatus.rejected)
    · simp [hall', hanyr]
    · have hanyr' : (signers.map (snapUpdSigner signerId outcome)).any
          (fun s => s.status = SignerStatus.rejected) = false := Bool.eq_false_iff.mpr hanyr
      simp only [hall', hanyr', Bool.false_eq_true, if_false]
      have hfun : (fun d : DocumentRow =>
          if d.id = id then { d with status := d.status } else d) = fun d => d := by
        funext d
        split <;> rfl
      rw [hfun, List.map_id']

/-- C3 amended witness: with an up-to-date snapshot of the single pending
signer of document 7, recording `signed` completes the document as the
stored rows dictate. -/
theorem c3_updateSignerStatus_derives_witness :
    (updateSignerStatus
        ⟨[uCreator], [docInProgress], [], [sigPending1], []⟩
        uCreator 5 7 [sigPending1] "" 21 .signed).documents =
      [docInProgress].map (fun d =>
        if d.id = 7 then
          { d with status := (deriveFromSigners
              (((updateSignerStatus
                  ⟨[uCreator], [docInProgress], [], [sigPending1], []⟩
                  uCreator 5 7 [sigPending1] "" 21 .signed).external_signers.filter
                  (fun s => s.document_id = 7)).map (fun s => s.status))
              d.status) }
        else d) :=
  c3_updateSignerStatus_derives_from_agreeing_snapshot
    ⟨[uCreator], [docInProgress], [], [sigPending1], []⟩
    uCreator 5 7 [sigPending1] "" 21 .signed (by decide)

/-! ## C2: terminal document statuses are not guarded by the engine -/

/-- C2 counterexample.  Document 7 is `rejected` (its approver rows are
`[rejected, approved]`), yet a further `handleApproval` call that flips the
rejecting approver row to approved moves the document to `in_progress`: the
call is neither refused nor a no-op on the document row. -/
theorem c2_terminal_escape_counterexample :
    (stRejected.documents.map (fun d => d.status) = [.rejected]) ∧
    ((handleApproval stRejected uAdmin1 5 7 1 .approved none).documents.map
      (fun d => d.status) = [.in_progress]) := by decide

/-- C2 amended.  Neither operation checks the document's current status; a
terminal status persists only while the evaluated rows still justify it:
if some approver row of the document other than the acted-on one is
rejected, any further `handleApproval` leaves (re-writes) the document
`rejected`; likewise for `updateSignerStatus` when the snapshot holds
another rejected signer row. -/
theorem c2_rejected_sticky_while_rejection_remains (st : DBState)
    (user user2 : UserRow) (now now2 docId apprId : Nat) (dec : Decision)
    (comments : Option String) (signerId : Nat) (outcome : SignOutcome)
    (snap : List ExternalSignerRow) (msg : String)
    (h1 : ∃ a ∈ st.approvers, a.document_id = docId ∧ a.id ≠ apprId ∧
      a.status = ApproverStatus.rejected)
    (h2 : ∃ s ∈ snap, s.id ≠ signerId ∧ s.status = SignerStatus.rejected) :
    (∀ d ∈ (handleApproval st user now docId apprId dec comments).documents,
        d.id = docId → d.status = .rejected) ∧
    (∀ d ∈ (updateSignerStatus st user2 now2 docId snap msg signerId
        outcome).documents, d.id = docId → d.status = .rejected) := by
  constructor
  · obtain ⟨a, ha, hadoc, hane, harej⟩ := h1
    have hupd : updApproverRow apprId dec comments now a = a := by
      unfold updApproverRow
      rw [if_neg hane]
    have hmem : a ∈ st.approvers.map (updApproverRow apprId dec comments now) := by
      have hm := List.mem_map_of_mem (updApproverRow apprId dec comments now) ha
      rwa [hupd] at hm
    have hr : (docApproverStatuses
        (st.approvers.map (updApproverRow apprId dec comments now)) docId).any
        (fun s => s = ApproverStatus.rejected) = true := by
      apply List.any_eq_true.mpr
      refine ⟨a.status, List.mem_map.mpr ⟨a, List.mem_filter.mpr ⟨hmem, by simp [hadoc]⟩, rfl⟩, ?_⟩
      rw [harej]
      decide
    have hnds : newDocumentStatusOf (docApproverStatuses
        (st.approvers.map (updApproverRow apprId dec comments now)) docId) = .rejected := by
      unfold newDocumentStatusOf
      rw [hr]
      simp
    intro d hd hid
    rw [handleApproval_documents, hnds] at hd
    simp only [ne_eq, reduceCtorEq, not_false_eq_true, if_true, reduceIte] at hd
    rcases List.mem_map.mp hd with ⟨d0, _, rfl⟩
    by_cases h0 : d0.id = docId
    · simp [h0]
    · simp [h0] at hid
  · obtain ⟨s0, hs0, hsne, hsrej⟩ := h2
    have hupd : snapUpdSigner signerId outcome s0 = s0 := by
      unfold snapUpdSigner
      rw [if_neg hsne]
    have hmem : s0 ∈ snap.map (snapUpdSigner signerId outcome) := by
      have hm := List.mem_map_of_mem (snapUpdSigner signerId outcome) hs0
      rwa [hupd] at hm
    have hanyr : (snap.map (snapUpdSigner signerId outcome)).any
        (fun s => s.status = SignerStatus.rejected) = true := by
      apply List.any_eq_true.mpr
      exact ⟨s0, hmem, by rw [hsrej]; decide⟩
    have hall : (snap.map (snapUpdSigner signerId outcome)).all
        (fun s => s.status = SignerStatus.signed) = false := by
      rw [Bool.eq_false_iff]
      intro hcon
      have := List.all_eq_true.mp hcon s0 hmem
      rw [hsrej] at this
      exact absurd this (by decide)
    intro d hd hid
    rw [updateSignerStatus_documents, hall, hanyr] at hd
    simp only [Bool.false_eq_true, if_false, if_true, reduceIte] at hd
    rcases List.mem_map.mp hd with ⟨d0, _, rfl⟩
    by_cases h0 : d0.id = docId
    · simp [h0]
    · simp [h0] at hid

/-- C2 amended witness: on the rejected document with approver rows
`[rejected, approved]`, Bob re-approving his own row, and a signer outcome
recorded while another snapshot row is rejected, both leave the document
`rejected`. -/
theorem c2_rejected_sticky_witness :
    (∀ d ∈ (handleApproval stRejected uAdmin2 6 7 2 .approved none).documents,
        d.id = 7 → d.status = .rejected) ∧
    (∀ d ∈ (updateSignerStatus stRejected uCreator 6 7 [sigRejected2] "" 99
        .signed).documents, d.id = 7 → d.status = .rejected) :=
  c2_rejected_sticky_while_rejection_remains stRejected uAdmin2 uCreator 6 6 7 2
    .approved none 99 .signed [sigRejected2] ""
    ⟨⟨1, 7, 11, 1, .rejected, none, none⟩, by decide, by decide, by decide, by decide⟩
    ⟨sigRejected2, by decide, by decide, by decide⟩

/-! ## C6: recordApproverDecision performs no authorization check -/

/-- C6 counterexample.  Oscar (subject 99) is not the assigned approver
(user 11) of approver row 1, yet his call is not refused: the targeted
approver row changes from pending to approved and an activity row is
appended. -/
theorem c6_no_authorization_check_counterexample :
    uOther.id ≠ apprPending1.user_id ∧
    (handleApproval stPending2 uOther 5 7 1 .approved none).approvers.map
      (fun a => a.status) = [.approved, .pending] ∧
    (handleApproval stPending2 uOther 5 7 1 .approved none).status_updates.length
      = 1 := by decide

/-- C6 amended.  `handleApproval` never consults the acting subject's
identity for authorization: the approver rows, documents, signer rows and
users it produces, and the number of activity rows it appends, are identical
for any two acting subjects; the subject only enters the appended activity
row's `updated_by` and message text. -/
theorem c6_effect_independent_of_acting_subject (st : DBState) (u u' : UserRow)
    (now docId apprId : Nat) (dec : Decision) (comments : Option String) :
    (handleApproval st u now docId apprId dec comments).approvers =
      (handleApproval st u' now docId apprId dec comments).approvers ∧
    (handleApproval st u now docId apprId dec comments).documents =
      (handleApproval st u' now docId apprId dec comments).documents ∧
    (handleApproval st u now docId apprId dec comments).external_signers =
      (handleApproval st u' now docId apprId dec comments).external_signers ∧
    (handleApproval st u now docId apprId dec comments).users =
      (handleApproval st u' now docId apprId dec comments).users ∧
    (handleApproval st u now docId apprId dec comments).status_updates.length =
      (handleApproval st u' now docId apprId dec comments).status_updates.length := by
  refine ⟨rfl, rfl, rfl, rfl, ?_⟩
  rw [handleApproval_status_updates, handleApproval_status_updates]
  simp

/-! ## C9: the appended ActivityEvent of a decision -/

/-- C9 counterexample.  A decision call appends one activity row, but its
`update_type` is the decision value `"approved"`, not `"decision"`; and with
supplied-but-empty comments the message is the generated summary, not the
comments. -/
theorem c9_update_type_counterexample :
    (handleApproval stPending1 uAdmin1 5 7 1 .approved (some "")).status_updates =
      [⟨7, 11, "approved",
        "Document approved by all approvers and ready for signing"⟩] ∧
    "approved" ≠ "decision" := by decide

/-- The generated summary of `handleApproval` is one of three fixed
message shapes. -/
theorem approvalUpdateMessage_cases (rows : List ApproverStatus) (dec : Decision)
    (user : UserRow) :
    approvalUpdateMessage rows dec user = "Document rejected by one or more approvers" ∨
    approvalUpdateMessage rows dec user =
      "Document approved by all approvers and ready for signing" ∨
    approvalUpdateMessage rows dec user =
      "Document " ++ decisionString dec ++ " by " ++ user.full_name := by
  unfold approvalUpdateMessage
  split
  · exact Or.inl rfl
  · split
    · exact Or.inr (Or.inl rfl)
    · exact Or.inr (Or.inr rfl)

/-- C9 amended.  Every `handleApproval` call appends exactly one activity
row; its `update_type` is the decision value itself, and its message is the
supplied comments when non-empty, else one of the generated summaries. -/
theorem c9_one_activity_event_per_decision (st : DBState) (user : UserRow)
    (now docId apprId : Nat) (dec : Decision) (comments : Option String) :
    ∃ ev : StatusUpdateRow,
      (handleApproval st user now docId apprId dec comments).status_updates =
        st.status_updates ++ [ev] ∧
      ev.document_id = docId ∧
      ev.updated_by = user.id ∧
      ev.update_type = decisionString dec ∧
      (∀ c : String, comments = some c → c ≠ "" → ev.message = c) ∧
      ((comments = none ∨ comments = some "") →
        (ev.message = "Document rejected by one or more approvers" ∨
         ev.message = "Document approved by all approvers and ready for signing" ∨
         ev.message = "Document " ++ decisionString dec ++ " by " ++ user.full_name)) := by
  refine ⟨_, handleApproval_status_updates st user now docId apprId dec comments,
    rfl, rfl, rfl, ?_, ?_⟩
  · intro c hc hne
    simp only [hc, jsOrString]
    rw [if_neg hne]
  · intro hc
    rcases hc with h | h
    · simp only [h, jsOrString]
      exact approvalUpdateMessage_cases _ dec user
    · simp only [h, jsOrString, if_pos rfl]
      exact approvalUpdateMessage_cases _ dec user

/-! ## C7: empty approver or signer lists fail validation with no writes -/

/-- C7.  `submitDocument` with an empty approvers list or an empty signers
list stops at the zod schema: the result is a validation error and the
state — every table — is returned unchanged. -/
theorem c7_empty_lists_validation_error (st : DBState) (user : UserRow)
    (w : WriteOutcomes) (newDocId apprIdBase sigIdBase : Nat) (fileUrl : String)
    (data : CreateDocumentFormData)
    (h : data.approvers = [] ∨ data.external_signers = []) :
    submitDocument st user w newDocId apprIdBase sigIdBase fileUrl data =
      (st, .validationError) := by
  have hcheck : createDocumentSchema_check data = false := by
    unfold createDocumentSchema_check
    rcases h with h | h <;> rw [h] <;> simp
  unfold submitDocument
  rw [hcheck]
  simp

/-- A form with no approver selected. -/
def dataNoApprovers : CreateDocumentFormData :=
  ⟨"Budget", "Annual budget", [], [⟨"Zed", "CEO"⟩]⟩

/-- C7 witness: submitting the no-approver form returns a validation error
and leaves the state untouched. -/
theorem c7_empty_lists_validation_error_witness :
    submitDocument stPending1 uCreator ⟨true, true, true, true⟩ 42 100 200
        "https://blob/9" dataNoApprovers = (stPending1, .validationError) :=
  c7_empty_lists_validation_error stPending1 uCreator ⟨true, true, true, true⟩
    42 100 200 "https://blob/9" dataNoApprovers (Or.inl rfl)

/-! ## C8: submission is not atomic; one late failure is even swallowed -/

/-- A well-formed create-document form with two approvers and one signer. -/
def dataOk : CreateDocumentFormData :=
  ⟨"Budget", "Annual budget", [11, 12], [⟨"Zed", "CEO"⟩]⟩

/-- An initial state with users only. -/
def stEmpty : DBState := ⟨[uCreator, uAdmin1, uAdmin2], [], [], [], []⟩

/-- C8 counterexample.  When the final `status_updates` insert fails, the
call still reports success (`.ok`): that later write's failure is swallowed,
not surfaced, while the document/approver/signer rows remain persisted. -/
theorem c8_swallowed_failure_counterexample :
    ((submitDocument stEmpty uCreator ⟨true, true, true, false⟩ 42 100 200
        "https://blob/9" dataOk).2 = .ok 42) ∧
    ((submitDocument stEmpty uCreator ⟨true, true, true, false⟩ 42 100 200
        "https://blob/9" dataOk).1.status_updates = []) ∧
    ((submitDocument stEmpty uCreator ⟨true, true, true, false⟩ 42 100 200
        "https://blob/9" dataOk).1.documents.length = 1) ∧
    ((submitDocument stEmpty uCreator ⟨true, true, true, false⟩ 42 100 200
        "https://blob/9" dataOk).1.approvers.length = 2) := by decide

/-- C8 amended.  When the approver insert fails after the document insert
succeeded, the created document row stays persisted (no rollback), no
approver/signer/activity rows are written, and the failure is surfaced as an
error. -/
theorem c8_partial_write_persists_and_error_surfaces (st : DBState)
    (user : UserRow) (w : WriteOutcomes) (newDocId apprIdBase sigIdBase : Nat)
    (fileUrl : String) (data : CreateDocumentFormData)
    (hd : w.docInsertOk = true) (ha : w.approverInsertOk = false) :
    (onSubmit st user w newDocId apprIdBase sigIdBase fileUrl data).2 =
      .error .approverInsertFailed ∧
    (onSubmit st user w newDocId apprIdBase sigIdBase fileUrl data).1.documents =
      st.documents ++
        [{ id := newDocId
           title := data.title
           description := data.description
           document_url := fileUrl
           created_by := user.id
           status := .pending_approval }] ∧
    (onSubmit st user w newDocId apprIdBase sigIdBase fileUrl data).1.approvers =
      st.approvers ∧
    (onSubmit st user w newDocId apprIdBase sigIdBase fileUrl
      data).1.external_signers = st.external_signers ∧
    (onSubmit st user w newDocId apprIdBase sigIdBase fileUrl
      data).1.status_updates = st.status_updates := by
  unfold onSubmit
  rw [hd, ha]
  simp

/-- C8 amended witness: the concrete failing-approver-insert submission
surfaces the error and keeps the document row. -/
theorem c8_partial_write_persists_witness :
    (onSubmit stEmpty uCreator ⟨true, false, true, true⟩ 42 100 200
        "https://blob/9" dataOk).2 = .error .approverInsertFailed ∧
    (onSubmit stEmpty uCreator ⟨true, false, true, true⟩ 42 100 200
        "https://blob/9" dataOk).1.documents =
      stEmpty.documents ++
        [{ id := 42
           title := dataOk.title
           description := dataOk.description
           document_url := "https://blob/9"
           created_by := uCreator.id
           status := .pending_approval }] ∧
    (onSubmit stEmpty uCreator ⟨true, false, true, true⟩ 42 100 200
        "https://blob/9" dataOk).1.approvers = stEmpty.approvers ∧
    (onSubmit stEmpty uCreator ⟨true, false, true, true⟩ 42 100 200
        "https://blob/9" dataOk).1.external_signers = stEmpty.external_signers ∧
    (onSubmit stEmpty uCreator ⟨true, false, true, true⟩ 42 100 200
        "https://blob/9" dataOk).1.status_updates = stEmpty.status_updates :=
  c8_partial_write_persists_and_error_surfaces stEmpty uCreator
    ⟨true, false, true, true⟩ 42 100 200 "https://blob/9" dataOk rfl rfl

/-! ## C10: privilege comes exactly from the four admin employee codes -/

/-- C10.  `signUp` appends one user whose `is_admin` flag is true exactly
when the employee code is one of the four admin codes; and no engine
operation (`handleApproval`, `updateSignerStatus`, `onSubmit`) ever touches
the users table. -/
theorem c10_admin_iff_employee_code (st : DBState) (uid : Nat)
    (em pw code nm : String) :
    (∃ u : UserRow, (signUp st uid em pw code nm).users = st.users ++ [u] ∧
      u.employee_code = code ∧
      (u.is_admin = true ↔
        (code = "0001" ∨ code = "0002" ∨ code = "0003" ∨ code = "0004"))) ∧
    (∀ (user : UserRow) (now docId apprId : Nat) (dec : Decision)
        (com : Option String),
      (handleApproval st user now docId apprId dec com).users = st.users) ∧
    (∀ (user : UserRow) (now id : Nat) (signers : List ExternalSignerRow)
        (msg : String) (signerId : Nat) (outcome : SignOutcome),
      (updateSignerStatus st user now id signers msg signerId outcome).users =
        st.users) ∧
    (∀ (user : UserRow) (w : WriteOutcomes) (a b c : Nat) (url : String)
        (data : CreateDocumentFormData),
      (onSubmit st user w a b c url data).1.users = st.users) := by
  refine ⟨⟨_, rfl, rfl, ?_⟩, fun _ _ _ _ _ _ => rfl, fun _ _ _ _ _ _ _ => rfl, ?_⟩
  · show isAdminCode code = true ↔ _
    unfold isAdminCode
    simp [List.contains_iff_exists_mem_beq]
  · intro user w a b c url data
    unfold onSubmit
    by_cases h1 : w.docInsertOk <;> by_cases h2 : w.approverInsertOk <;>
      by_cases h3 : w.signerInsertOk <;> by_cases h4 : w.statusInsertOk <;>
      simp [h1, h2, h3, h4]

/-! ## C4: a successful submission creates exactly the four kinds of rows -/

/-- `onSubmit` with every gateway write succeeding, fully reduced. -/
theorem onSubmit_all_ok (st : DBState) (user : UserRow)
    (newDocId apprIdBase sigIdBase : Nat) (fileUrl : String)
    (data : CreateDocumentFormData) :
    onSubmit st user ⟨true, true, true, true⟩ newDocId apprIdBase sigIdBase
        fileUrl data =
      ({ users := st.users
         documents := st.documents ++
           [{ id := newDocId, title := data.title, description := data.description,
              document_url := fileUrl, created_by := user.id,
              status := .pending_approval }]
         approvers := st.approvers ++ data.approvers.enum.map (fun p =>
           ({ id := apprIdBase + p.1, document_id := newDocId, user_id := p.2,
              order := p.1 + 1, status := .pending, comments := none,
              approved_at := none } : ApproverRow))
         external_signers := st.external_signers ++ data.external_signers.enum.map
           (fun p =>
             ({ id := sigIdBase + p.1, document_id := newDocId, name := p.2.name,
                designation := p.2.designation, order := p.1 + 1, status := .pending,
                comments := none, signed_at := none } : ExternalSignerRow))
         status_updates := st.status_updates ++
           [{ document_id := newDocId, updated_by := user.id,
              update_type := "created",
              message := "Document created and submitted for approval" }] },
       .ok newDocId) := rfl

/-- `submitDocument` on schema-valid data defers to `onSubmit`. -/
theorem submitDocument_check_true (st : DBState) (user : UserRow)
    (w : WriteOutcomes) (newDocId apprIdBase sigIdBase : Nat) (fileUrl : String)
    (data : CreateDocumentFormData)
    (hcheck : createDocumentSchema_check data = true) :
    submitDocument st user w newDocId apprIdBase sigIdBase fileUrl data =
      (match onSubmit st user w newDocId apprIdBase sigIdBase fileUrl data with
       | (st1, .ok docId) => (st1, SubmitResult.ok docId)
       | (st1, .error e) => (st1, SubmitResult.persistError e)) := by
  unfold submitDocument
  rw [hcheck]
  rfl

/-- C4.  A successful `submitDocument` returns the created document id and
appends exactly: one document row in `pending_approval`, one approver row
per supplied approver id — `pending`, with `order` the 1-based position and
`user_id` the id at that position — one signer row per supplied entry
likewise, and one `created` activity row.  All other rows are untouched. -/
theorem c4_submit_creates_rows (st : DBState) (user : UserRow)
    (newDocId apprIdBase sigIdBase : Nat) (fileUrl : String)
    (data : CreateDocumentFormData)
    (hcheck : createDocumentSchema_check data = true) :
    (submitDocument st user ⟨true, true, true, true⟩ newDocId apprIdBase
      sigIdBase fileUrl data).2 = .ok newDocId ∧
    (submitDocument st user ⟨true, true, true, true⟩ newDocId apprIdBase
      sigIdBase fileUrl data).1.documents =
        st.documents ++
          [{ id := newDocId, title := data.title, description := data.description,
             document_url := fileUrl, created_by := user.id,
             status := .pending_approval }] ∧
    (∃ apprRows : List ApproverRow,
      (submitDocument st user ⟨true, true, true, true⟩ newDocId apprIdBase
        sigIdBase fileUrl data).1.approvers = st.approvers ++ apprRows ∧
      apprRows.length = data.approvers.length ∧
      (∀ i : Nat, apprRows[i]? = (data.approvers[i]?).map (fun uid =>
        ({ id := apprIdBase + i, document_id := newDocId, user_id := uid,
           order := i + 1, status := .pending, comments := none,
           approved_at := none } : ApproverRow)))) ∧
    (∃ sigRows : List ExternalSignerRow,
      (submitDocument st user ⟨true, true, true, true⟩ newDocId apprIdBase
        sigIdBase fileUrl data).1.external_signers =
          st.external_signers ++ sigRows ∧
      sigRows.length = data.external_signers.length ∧
      (∀ i : Nat, sigRows[i]? = (data.external_signers[i]?).map (fun sg =>
        ({ id := sigIdBase + i, document_id := newDocId, name := sg.name,
           designation := sg.designation, order := i + 1, status := .pending,
           comments := none, signed_at := none } : ExternalSignerRow)))) ∧
    (submitDocument st user ⟨true, true, true, true⟩ newDocId apprIdBase
      sigIdBase fileUrl data).1.status_updates =
        st.status_updates ++
          [{ document_id := newDocId, updated_by := user.id,
             update_type := "created",
             message := "Document created and submitted for approval" }] ∧
    (submitDocument st user ⟨true, true, true, true⟩ newDocId apprIdBase
      sigIdBase fileUrl data).1.users = st.users := by
  rw [submitDocument_check_true st user ⟨true, true, true, true⟩ newDocId
    apprIdBase sigIdBase fileUrl data hcheck]
  rw [onSubmit_all_ok]
  refine ⟨rfl, rfl, ⟨_, rfl, ?_, ?_⟩, ⟨_, rfl, ?_, ?_⟩, rfl, rfl⟩
  · simp [List.enum_length]
  · intro i
    rw [List.getElem?_map, List.getElem?_enum, Option.map_map]
    rfl
  · simp [List.enum_length]
  · intro i
    rw [List.getElem?_map, List.getElem?_enum, Option.map_map]
    rfl

/-- C4 witness: submitting the two-approver, one-signer form into the empty
state creates document 42 with exactly the described child rows. -/
theorem c4_submit_creates_rows_witness :
    (submitDocument stEmpty uCreator ⟨true, true, true, true⟩ 42 100
      200 "https://blob/9" dataOk).2 = .ok 42 ∧
    (submitDocument stEmpty uCreator ⟨true, true, true, true⟩ 42 100
      200 "https://blob/9" dataOk).1.documents =
        stEmpty.documents ++
          [{ id := 42, title := dataOk.title, description := dataOk.description,
             document_url := "https://blob/9", created_by := uCreator.id,
             status := .pending_approval }] ∧
    (∃ apprRows : List ApproverRow,
      (submitDocument stEmpty uCreator ⟨true, true, true, true⟩ 42 100
        200 "https://blob/9" dataOk).1.approvers = stEmpty.approvers ++ apprRows ∧
      apprRows.length = dataOk.approvers.length ∧
      (∀ i : Nat, apprRows[i]? = (dataOk.approvers[i]?).map (fun uid =>
        ({ id := 100 + i, document_id := 42, user_id := uid,
           order := i + 1, status := .pending, comments := none,
           approved_at := none } : ApproverRow)))) ∧
    (∃ sigRows : List ExternalSignerRow,
      (submitDocument stEmpty uCreator ⟨true, true, true, true⟩ 42 100
        200 "https://blob/9" dataOk).1.external_signers =
          stEmpty.external_signers ++ sigRows ∧
      sigRows.length = dataOk.external_signers.length ∧
      (∀ i : Nat, sigRows[i]? = (dataOk.external_signers[i]?).map (fun sg =>
        ({ id := 200 + i, document_id := 42, name := sg.name,
           designation := sg.designation, order := i + 1, status := .pending,
           comments := none, signed_at := none } : ExternalSignerRow)))) ∧
    (submitDocument stEmpty uCreator ⟨true, true, true, true⟩ 42 100
      200 "https://blob/9" dataOk).1.status_updates =
        stEmpty.status_updates ++
          [{ document_id := 42, updated_by := uCreator.id,
             update_type := "created",
             message := "Document created and submitted for approval" }] ∧
    (submitDocument stEmpty uCreator ⟨true, true, true, true⟩ 42 100
      200 "https://blob/9" dataOk).1.users = stEmpty.users :=
  c4_submit_creates_rows stEmpty uCreator 42 100 200 "https://blob/9" dataOk
    (by decide)

/-! ## C5: order independence of approver decisions -/

/-- One recordApproverDecision invocation: the acting admin, the wall-clock
instant, the targeted approver row id, the decision, and optional comments. -/
structure ApprovalCall where
  user : UserRow
  now : Nat
  approverId : Nat
  decision : Decision
  comments : Option String
deriving DecidableEq, Repr

/-- A sequence of `handleApproval` calls against one document, applied in
order. -/
def runApprovals (st : DBState) (docId : Nat) (calls : List ApprovalCall) : DBState :=
  calls.foldl
    (fun s c => handleApproval s c.user c.now docId c.approverId c.decision c.comments)
    st

theorem updApproverRow_id (apprId : Nat) (dec : Decision) (com : Option String)
    (now : Nat) (a : ApproverRow) :
    (updApproverRow apprId dec com now a).id = a.id := by
  unfold updApproverRow; split <;> rfl

theorem updApproverRow_document_id (apprId : Nat) (dec : Decision)
    (com : Option String) (now : Nat) (a : ApproverRow) :
    (updApproverRow apprId dec com now a).document_id = a.document_id := by
  unfold updApproverRow; split <;> rfl

theorem updApproverRow_of_ne {apprId : Nat} {a : ApproverRow} (dec : Decision)
    (com : Option String) (now : Nat) (h : a.id ≠ apprId) :
    updApproverRow apprId dec com now a = a := by
  unfold updApproverRow; rw [if_neg h]

theorem updApproverRow_status_of_eq {apprId : Nat} {a : ApproverRow} (dec : Decision)
    (com : Option String) (now : Nat) (h : a.id = apprId) :
    (updApproverRow apprId dec com now a).status = decisionApproverStatus dec := by
  unfold updApproverRow; rw [if_pos h]

theorem decisionApproverStatus_rejected {dec : Decision}
    (h : decisionApproverStatus dec = ApproverStatus.rejected) :
    dec = Decision.rejected := by
  cases dec
  · exact absurd h (by decide)
  · rfl

theorem decisionApproverStatus_ne_pending (dec : Decision) :
    decisionApproverStatus dec ≠ ApproverStatus.pending := by
  cases dec <;> decide

/-- Membership in the re-read status list of a document. -/
theorem mem_docApproverStatuses_iff (approvers : List ApproverRow) (docId : Nat)
    (s : ApproverStatus) :
    s ∈ docApproverStatuses approvers docId ↔
      ∃ a ∈ approvers, a.document_id = docId ∧ a.status = s := by
  unfold docApproverStatuses
  constructor
  · intro hs
    rcases List.mem_map.mp hs with ⟨a, haf, rfl⟩
    rcases List.mem_filter.mp haf with ⟨ha, hdoc⟩
    exact ⟨a, ha, by simpa using hdoc, rfl⟩
  · rintro ⟨a, ha, hdoc, rfl⟩
    exact List.mem_map_of_mem _ (List.mem_filter.mpr ⟨ha, by simpa using hdoc⟩)

theorem any_rejected_eq_true_iff (rows : List ApproverStatus) :
    rows.any (fun s => s = ApproverStatus.rejected) = true ↔
      ApproverStatus.rejected ∈ rows := by
  rw [List.any_eq_true]
  constructor
  · rintro ⟨s, hs, hp⟩
    have hps : s = ApproverStatus.rejected := by simpa using hp
    rwa [hps] at hs
  · intro h
    exact ⟨_, h, rfl⟩

theorem all_approved_eq_true_iff (rows : List ApproverStatus) :
    rows.all (fun s => s = ApproverStatus.approved) = true ↔
      ∀ s ∈ rows, s = ApproverStatus.approved := by
  rw [List.all_eq_true]
  constructor
  · intro h s hs
    simpa using h s hs
  · intro h s hs
    simp [h s hs]

/-- After the row update, the document's re-read rows contain a rejection
exactly when the decision itself was a rejection of an existing row of the
document, or some other row of the document was already rejected. -/
theorem post_rejected_mem_iff (st : DBState) (docId apprId : Nat) (dec : Decision)
    (com : Option String) (now : Nat) :
    (ApproverStatus.rejected ∈ docApproverStatuses
        (st.approvers.map (updApproverRow apprId dec com now)) docId) ↔
    ((dec = Decision.rejected ∧
        ∃ a ∈ st.approvers, a.document_id = docId ∧ a.id = apprId) ∨
     (∃ a ∈ st.approvers, a.document_id = docId ∧ a.id ≠ apprId ∧
        a.status = ApproverStatus.rejected)) := by
  rw [mem_docApproverStatuses_iff]
  constructor
  · rintro ⟨a', ha', hdoc, hst⟩
    rcases List.mem_map.mp ha' with ⟨a0, ha0, rfl⟩
    rw [updApproverRow_document_id] at hdoc
    by_cases h0 : a0.id = apprId
    · rw [updApproverRow_status_of_eq dec com now h0] at hst
      exact Or.inl ⟨decisionApproverStatus_rejected hst, a0, ha0, hdoc, h0⟩
    · rw [updApproverRow_of_ne dec com now h0] at hst
      exact Or.inr ⟨a0, ha0, hdoc, h0, hst⟩
  · rintro (⟨hdec, a, ha, hdoc, hid⟩ | ⟨a, ha, hdoc, hne, hrej⟩)
    · refine ⟨updApproverRow apprId dec com now a, List.mem_map_of_mem _ ha, ?_, ?_⟩
      · rw [updApproverRow_document_id]; exact hdoc
      · rw [updApproverRow_status_of_eq dec com now hid, hdec]; rfl
    · refine ⟨updApproverRow apprId dec com now a, List.mem_map_of_mem _ ha, ?_, ?_⟩
      · rw [updApproverRow_document_id]; exact hdoc
      · rw [updApproverRow_of_ne dec com now hne]; exact hrej

/-- After an approval of the only still-pending row (and with no other row
rejected), every re-read row of the document is approved. -/
theorem post_all_approved (st : DBState) (docId apprId : Nat) (dec : Decision)
    (com : Option String) (now : Nat)
    (hdec : dec = Decision.approved)
    (hpend : ∀ a ∈ st.approvers, a.document_id = docId →
      a.status = ApproverStatus.pending → a.id = apprId)
    (hnorej : ∀ a ∈ st.approvers, a.document_id = docId → a.id ≠ apprId →
      a.status ≠ ApproverStatus.rejected) :
    ∀ s ∈ docApproverStatuses
        (st.approvers.map (updApproverRow apprId dec com now)) docId,
      s = ApproverStatus.approved := by
  intro s hs
  rcases (mem_docApproverStatuses_iff _ _ _).mp hs with ⟨a', ha', hdoc, hst⟩
  rcases List.mem_map.mp ha' with ⟨a0, ha0, rfl⟩
  rw [updApproverRow_document_id] at hdoc
  by_cases h0 : a0.id = apprId
  · rw [updApproverRow_status_of_eq dec com now h0, hdec] at hst
    exact hst.symm
  · rw [updApproverRow_of_ne dec com now h0] at hst
    cases hstat : a0.status
    · exact absurd (hpend a0 ha0 hdoc hstat) h0
    · exact (hst.symm.trans hstat)
    · exact absurd hstat (hnorej a0 ha0 hdoc h0)

/-- When the re-read rows contain a rejection, the document rows with the
document's id all end `rejected`. -/
theorem handleApproval_documents_of_rejected (st : DBState) (user : UserRow)
    (now docId apprId : Nat) (dec : Decision) (com : Option String)
    (hr : ApproverStatus.rejected ∈ docApproverStatuses
        (st.approvers.map (updApproverRow apprId dec com now)) docId) :
    ∀ d ∈ (handleApproval st user now docId apprId dec com).documents,
      d.id = docId → d.status = DocStatus.rejected := by
  intro d hd hid
  have hany := (any_rejected_eq_true_iff _).mpr hr
  have hnds : newDocumentStatusOf (docApproverStatuses
      (st.approvers.map (updApproverRow apprId dec com now)) docId) = .rejected := by
    unfold newDocumentStatusOf
    rw [hany]
    simp
  rw [handleApproval_documents, hnds] at hd
  simp only [ne_eq, reduceCtorEq, not_false_eq_true, if_true, reduceIte] at hd
  rcases List.mem_map.mp hd with ⟨d0, _, rfl⟩
  by_cases h0 : d0.id = docId
  · simp [h0]
  · simp [h0] at hid

/-- When the re-read rows contain no rejection and are all approved, the
document rows with the document's id all end `in_progress`. -/
theorem handleApproval_documents_of_all_approved (st : DBState) (user : UserRow)
    (now docId apprId : Nat) (dec : Decision) (com : Option String)
    (hnr : ApproverStatus.rejected ∉ docApproverStatuses
        (st.approvers.map (updApproverRow apprId dec com now)) docId)
    (hall : ∀ s ∈ docApproverStatuses
        (st.approvers.map (updApproverRow apprId dec com now)) docId,
      s = ApproverStatus.approved) :
    ∀ d ∈ (handleApproval st user now docId apprId dec com).documents,
      d.id = docId → d.status = DocStatus.in_progress := by
  intro d hd hid
  have hany : (docApproverStatuses
      (st.approvers.map (updApproverRow apprId dec com now)) docId).any
      (fun s => s = ApproverStatus.rejected) = false := by
    rw [Bool.eq_false_iff]
    intro hcon
    exact hnr ((any_rejected_eq_true_iff _).mp hcon)
  have hallb := (all_approved_eq_true_iff _).mpr hall
  have hnds : newDocumentStatusOf (docApproverStatuses
      (st.approvers.map (updApproverRow apprId dec com now)) docId) = .approved := by
    unfold newDocumentStatusOf
    rw [hany, hallb]
    simp
  rw [handleApproval_documents, hnds] at hd
  simp only [ne_eq, reduceCtorEq, not_false_eq_true, if_true, reduceIte] at hd
  rcases List.mem_map.mp hd with ⟨d0, _, rfl⟩
  by_cases h0 : d0.id = docId
  · simp [h0]
  · simp [h0] at hid

/-- Characterization of a full decision run: when the pending rows of the
document are exactly the targets of the (distinctly-targeted, non-empty)
call list and every call targets an existing row of the document, the final
document status is `rejected` exactly when some call rejects or some row was
already rejected, and `in_progress` otherwise. -/
theorem runApprovals_final_status (calls : List ApprovalCall) :
    ∀ (st : DBState) (docId : Nat),
    calls ≠ [] →
    (calls.map (fun c => c.approverId)).Nodup →
    (∀ a ∈ st.approvers, a.document_id = docId →
      (a.status = ApproverStatus.pending ↔
        a.id ∈ calls.map (fun c => c.approverId))) →
    (∀ c ∈ calls, ∃ a ∈ st.approvers, a.document_id = docId ∧
      a.id = c.approverId) →
    ∀ d ∈ (runApprovals st docId calls).documents, d.id = docId →
      d.status = (if (∃ c ∈ calls, c.decision = Decision.rejected) ∨
          (∃ a ∈ st.approvers, a.document_id = docId ∧
            a.status = ApproverStatus.rejected)
        then DocStatus.rejected else DocStatus.in_progress) := by
  induction calls with
  | nil =>
    intro st docId hne
    exact absurd rfl hne
  | cons c rest ih =>
    intro st docId hne hnd hpend hexists
    rw [List.map_cons] at hnd
    have hhead_notin : c.approverId ∉ rest.map (fun c => c.approverId) :=
      (List.nodup_cons.mp hnd).1
    have hnd_rest : (rest.map (fun c => c.approverId)).Nodup :=
      (List.nodup_cons.mp hnd).2
    have hrun : runApprovals st docId (c :: rest) =
        runApprovals (handleApproval st c.user c.now docId c.approverId
          c.decision c.comments) docId rest := rfl
    by_cases hrest : rest = []
    · subst hrest
      intro d hd hid
      rw [hrun] at hd
      by_cases hq : (∃ c' ∈ [c], c'.decision = Decision.rejected) ∨
          (∃ a ∈ st.approvers, a.document_id = docId ∧
            a.status = ApproverStatus.rejected)
      · rw [if_pos hq]
        have hr : ApproverStatus.rejected ∈ docApproverStatuses
            (st.approvers.map (updApproverRow c.approverId c.decision
              c.comments c.now)) docId := by
          apply (post_rejected_mem_iff st docId c.approverId c.decision
            c.comments c.now).mpr
          rcases hq with ⟨cx, hcx, hrej⟩ | ⟨a, ha, hdoc, hrej⟩
          · have hcc : cx = c := by simpa using hcx
            rw [hcc] at hrej
            exact Or.inl ⟨hrej, hexists c (by simp)⟩
          · have hne' : a.id ≠ c.approverId := by
              intro h
              have hp := (hpend a ha hdoc).mpr (by simp [h])
              exact absurd (hp.symm.trans hrej) (by decide)
            exact Or.inr ⟨a, ha, hdoc, hne', hrej⟩
        exact handleApproval_documents_of_rejected st c.user c.now docId
          c.approverId c.decision c.comments hr d hd hid
      · rw [if_neg hq]
        have hdec : c.decision = Decision.approved := by
          cases hc : c.decision
          · rfl
          · exact absurd (Or.inl ⟨c, by simp, hc⟩) hq
        have hnorej : ∀ a ∈ st.approvers, a.document_id = docId →
            a.status ≠ ApproverStatus.rejected := by
          intro a ha hdoc hrej
          exact hq (Or.inr ⟨a, ha, hdoc, hrej⟩)
        have hpend1 : ∀ a ∈ st.approvers, a.document_id = docId →
            a.status = ApproverStatus.pending → a.id = c.approverId := by
          intro a ha hdoc hp
          have hm := (hpend a ha hdoc).mp hp
          simpa using hm
        have hnr : ApproverStatus.rejected ∉ docApproverStatuses
            (st.approvers.map (updApproverRow c.approverId c.decision
              c.comments c.now)) docId := by
          intro hmem
          rcases (post_rejected_mem_iff st docId c.approverId c.decision
            c.comments c.now).mp hmem with ⟨hdr, _⟩ | ⟨a, ha, hdoc, _, hrej⟩
          · rw [hdec] at hdr
            exact absurd hdr (by decide)
          · exact hnorej a ha hdoc hrej
        have hall := post_all_approved st docId c.approverId c.decision
          c.comments c.now hdec hpend1 (fun a ha hdoc _ => hnorej a ha hdoc)
        exact handleApproval_documents_of_all_approved st c.user c.now docId
          c.approverId c.decision c.comments hnr hall d hd hid
    · obtain ⟨ah, hah, hahdoc, hahid⟩ := hexists c (by simp)
      set st1 := handleApproval st c.user c.now docId c.approverId c.decision
        c.comments with hst1
      have hpend1 : ∀ a ∈ st1.approvers, a.document_id = docId →
          (a.status = ApproverStatus.pending ↔
            a.id ∈ rest.map (fun c => c.approverId)) := by
        intro a' ha' hdoc'
        rw [hst1, handleApproval_approvers] at ha'
        rcases List.mem_map.mp ha' with ⟨a0, ha0, rfl⟩
        rw [updApproverRow_document_id] at hdoc'
        by_cases h0 : a0.id = c.approverId
        · constructor
          · intro hp
            rw [updApproverRow_status_of_eq c.decision c.comments c.now h0] at hp
            exact absurd hp (decisionApproverStatus_ne_pending c.decision)
          · intro hmem
            rw [updApproverRow_id, h0] at hmem
            exact absurd hmem hhead_notin
        · rw [updApproverRow_of_ne c.decision c.comments c.now h0]
          have h3 := hpend a0 ha0 hdoc'
          rw [List.map_cons, List.mem_cons] at h3
          constructor
          · intro hp
            rcases h3.mp hp with heq | hm
            · exact absurd heq h0
            · exact hm
          · intro hm
            exact h3.mpr (Or.inr hm)
      have hexists1 : ∀ c' ∈ rest, ∃ a ∈ st1.approvers,
          a.document_id = docId ∧ a.id = c'.approverId := by
        intro c' hc'
        obtain ⟨a, ha, hdoc, hid⟩ := hexists c' (List.mem_cons_of_mem _ hc')
        refine ⟨updApproverRow c.approverId c.decision c.comments c.now a,
          ?_, ?_, ?_⟩
        · rw [hst1, handleApproval_approvers]
          exact List.mem_map_of_mem _ ha
        · rw [updApproverRow_document_id]
          exact hdoc
        · rw [updApproverRow_id]
          exact hid
      have hqiff : ((∃ c' ∈ rest, c'.decision = Decision.rejected) ∨
          (∃ a ∈ st1.approvers, a.document_id = docId ∧
            a.status = ApproverStatus.rejected)) ↔
          ((∃ c' ∈ c :: rest, c'.decision = Decision.rejected) ∨
          (∃ a ∈ st.approvers, a.document_id = docId ∧
            a.status = ApproverStatus.rejected)) := by
        constructor
        · rintro (⟨cx, hcx, hrej⟩ | ⟨a', ha', hdoc', hrej'⟩)
          · exact Or.inl ⟨cx, List.mem_cons_of_mem _ hcx, hrej⟩
          · rw [hst1, handleApproval_approvers] at ha'
            rcases List.mem_map.mp ha' with ⟨a0, ha0, rfl⟩
            rw [updApproverRow_document_id] at hdoc'
            by_cases h0 : a0.id = c.approverId
            · rw [updApproverRow_status_of_eq c.decision c.comments c.now h0]
                at hrej'
              exact Or.inl ⟨c, List.mem_cons_self c rest,
                decisionApproverStatus_rejected hrej'⟩
            · rw [updApproverRow_of_ne c.decision c.comments c.now h0] at hrej'
              exact Or.inr ⟨a0, ha0, hdoc', hrej'⟩
        · rintro (⟨cx, hcx, hrej⟩ | ⟨a, ha, hdoc, hrej⟩)
          · rcases List.mem_cons.mp hcx with heq | hm
            · rw [heq] at hrej
              refine Or.inr ⟨updApproverRow c.approverId c.decision
                c.comments c.now ah, ?_, ?_, ?_⟩
              · rw [hst1, handleApproval_approvers]
                exact List.mem_map_of_mem _ hah
              · rw [updApproverRow_document_id]
                exact hahdoc
              · rw [updApproverRow_status_of_eq c.decision c.comments
                  c.now hahid, hrej]
                rfl
            · exact Or.inl ⟨cx, hm, hrej⟩
          · have hne' : a.id ≠ c.approverId := by
              intro h
              have hp := (hpend a ha hdoc).mpr (by simp [h])
              exact absurd (hp.symm.trans hrej) (by decide)
            refine Or.inr ⟨updApproverRow c.approverId c.decision c.comments
              c.now a, ?_, ?_, ?_⟩
            · rw [hst1, handleApproval_approvers]
              exact List.mem_map_of_mem _ ha
            · rw [updApproverRow_document_id]
              exact hdoc
            · rw [updApproverRow_of_ne c.decision c.comments c.now hne']
              exact hrej
      intro d hd hid
      rw [hrun] at hd
      have hfin := ih st1 docId hrest hnd_rest hpend1 hexists1 d hd hid
      rw [hfin]
      exact if_congr hqiff rfl rfl

/-- C5.  With every approver row of the document pending and one decision
per approver, any two orders of the same decisions drive the document to the
same final status: `rejected` when at least one decision rejects, and
`in_progress` when all approve. -/
theorem c5_order_independent_final_status (st : DBState) (docId : Nat)
    (calls₁ calls₂ : List ApprovalCall)
    (hperm : calls₁.Perm calls₂)
    (hne : calls₁ ≠ [])
    (hnd : (calls₁.map (fun c => c.approverId)).Nodup)
    (hpend : ∀ a ∈ st.approvers, a.document_id = docId →
      a.status = ApproverStatus.pending)
    (hcover : ∀ a ∈ st.approvers, a.document_id = docId →
      a.id ∈ calls₁.map (fun c => c.approverId))
    (hexists : ∀ c ∈ calls₁, ∃ a ∈ st.approvers, a.document_id = docId ∧
      a.id = c.approverId) :
    (∀ d ∈ (runApprovals st docId calls₁).documents, d.id = docId →
      d.status = (if ∃ c ∈ calls₁, c.decision = Decision.rejected
                  then DocStatus.rejected else DocStatus.in_progress)) ∧
    (∀ d ∈ (runApprovals st docId calls₂).documents, d.id = docId →
      d.status = (if ∃ c ∈ calls₁, c.decision = Decision.rejected
                  then DocStatus.rejected else DocStatus.in_progress)) := by
  have hnorej : ¬(∃ a ∈ st.approvers, a.document_id = docId ∧
      a.status = ApproverStatus.rejected) := by
    rintro ⟨a, ha, hdoc, hrej⟩
    have hp := hpend a ha hdoc
    exact absurd (hp.symm.trans hrej) (by decide)
  have hiff₁ : ∀ a ∈ st.approvers, a.document_id = docId →
      (a.status = ApproverStatus.pending ↔
        a.id ∈ calls₁.map (fun c => c.approverId)) := by
    intro a ha hdoc
    exact ⟨fun _ => hcover a ha hdoc, fun _ => hpend a ha hdoc⟩
  have hne₂ : calls₂ ≠ [] := by
    intro h
    rw [h] at hperm
    exact hne hperm.eq_nil
  have hmapperm : (calls₁.map (fun c => c.approverId)).Perm
      (calls₂.map (fun c => c.approverId)) := hperm.map _
  have hnd₂ : (calls₂.map (fun c => c.approverId)).Nodup := hmapperm.nodup hnd
  have hiff₂ : ∀ a ∈ st.approvers, a.document_id = docId →
      (a.status = ApproverStatus.pending ↔
        a.id ∈ calls₂.map (fun c => c.approverId)) := by
    intro a ha hdoc
    exact ⟨fun _ => hmapperm.mem_iff.mp (hcover a ha hdoc),
      fun _ => hpend a ha hdoc⟩
  have hexists₂ : ∀ c ∈ calls₂, ∃ a ∈ st.approvers, a.document_id = docId ∧
      a.id = c.approverId := fun c hc => hexists c (hperm.mem_iff.mpr hc)
  have hrejiff : (∃ c ∈ calls₂, c.decision = Decision.rejected) ↔
      (∃ c ∈ calls₁, c.decision = Decision.rejected) := by
    constructor
    · rintro ⟨c, hc, h⟩
      exact ⟨c, hperm.mem_iff.mpr hc, h⟩
    · rintro ⟨c, hc, h⟩
      exact ⟨c, hperm.mem_iff.mp hc, h⟩
  constructor
  · intro d hd hid
    have h1 := runApprovals_final_status calls₁ st docId hne hnd hiff₁ hexists
      d hd hid
    rw [h1]
    exact if_congr (or_iff_left hnorej) rfl rfl
  · intro d hd hid
    have h2 := runApprovals_final_status calls₂ st docId hne₂ hnd₂ hiff₂
      hexists₂ d hd hid
    rw [h2]
    exact if_congr ((or_iff_left hnorej).trans hrejiff) rfl rfl

def apprPending3 : ApproverRow := ⟨3, 7, 13, 3, .pending, none, none⟩

/-- A pending document with three pending approvers, for the spec's
three-approver order-independence scenario. -/
def stPending3 : DBState :=
  ⟨[uCreator, uAdmin1, uAdmin2, uAdmin3], [docPending],
   [apprPending1, apprPending2, apprPending3], [], []⟩

def callA1 : ApprovalCall := ⟨uAdmin1, 1, 1, .approved, none⟩

def callA2 : ApprovalCall := ⟨uAdmin2, 2, 2, .approved, none⟩

def callR3 : ApprovalCall := ⟨uAdmin3, 3, 3, .rejected, none⟩

/-- C5 witness: three approvers, one of whom rejects, acting in orders
(1,2,3) and (3,1,2): both runs end with document 7 `rejected`. -/
theorem c5_order_independent_final_status_witness :
    (∀ d ∈ (runApprovals stPending3 7 [callA1, callA2, callR3]).documents,
      d.id = 7 →
      d.status = (if ∃ c ∈ [callA1, callA2, callR3],
            c.decision = Decision.rejected
          then DocStatus.rejected else DocStatus.in_progress)) ∧
    (∀ d ∈ (runApprovals stPending3 7 [callR3, callA1, callA2]).documents,
      d.id = 7 →
      d.status = (if ∃ c ∈ [callA1, callA2, callR3],
            c.decision = Decision.rejected
          then DocStatus.rejected else DocStatus.in_progress)) :=
  c5_order_independent_final_status stPending3 7 [callA1, callA2, callR3]
    [callR3, callA1, callA2] (by decide) (by decide) (by decide) (by decide)
    (by decide) (by decide)

end SignTracker
